import Mathlib

/-!
Shallow embedding of `src/streamlit_pelaporan_sederhana_app.py`, the single
source file of the repository: a Streamlit reporting tool backed by one
SQLite table `reports`.

The SQLite table is modelled as a list of rows kept in insertion order
together with the AUTOINCREMENT sequence counter (`DB.seq`): SQLite's
`INTEGER PRIMARY KEY AUTOINCREMENT` assigns `seq + 1` to a fresh row and
never reuses ids.  Timestamps (`datetime.now()`) are passed in explicitly as
parameters, making every function pure.  Machine integers are `Nat`.
-/

/-- One row of the `reports` table (schema from `init_db`, lines 23-41 of the
source).  Nullable SQL columns are `Option String`; `status` has SQL default
`'Baru'` and is therefore never null. -/
structure Report where
  id : Nat
  created_at : String
  pelapor_nama : Option String
  pelapor_email : Option String
  judul : String
  kategori : Option String
  prioritas : Option String
  deskripsi : Option String
  status : String
  lampiran_path : Option String
deriving Repr, DecidableEq

/-- The database: the `reports` table in insertion order plus the
AUTOINCREMENT sequence (largest id ever assigned). -/
structure DB where
  reports : List Report
  seq : Nat
deriving Repr, DecidableEq

/-- `init_db` (lines 23-41): a freshly created empty table. -/
def init_db : DB := { reports := [], seq := 0 }

/-- The `row: dict` argument of `insert_report`.  `none` models an absent key
(or a `None` value); `status` uses `row.get("status", "Baru")`. -/
structure Row where
  pelapor_nama : Option String
  pelapor_email : Option String
  judul : String
  kategori : Option String
  prioritas : Option String
  deskripsi : Option String
  status : Option String
  lampiran_path : Option String
deriving Repr, DecidableEq

/-- `insert_report` (lines 57-77): one `INSERT INTO reports` with
`created_at = now`; AUTOINCREMENT assigns the id `seq + 1`.  The Python
function has no `return` statement, so its value is `None`: the first
component of the result is that returned value, which is always `none`. -/
def insert_report (row : Row) (now : String) (db : DB) : Option Nat × DB :=
  let newId := db.seq + 1
  (none,
   { reports := db.reports ++ [{
       id := newId
       created_at := now
       pelapor_nama := row.pelapor_nama
       pelapor_email := row.pelapor_email
       judul := row.judul
       kategori := row.kategori
       prioritas := row.prioritas
       deskripsi := row.deskripsi
       status := row.status.getD "Baru"
       lampiran_path := row.lampiran_path }]
     seq := newId })

/-- `ORDER BY id DESC` as a relation: `a` comes no later than `b` when
`b.id ≤ a.id`. -/
def idGE (a b : Report) : Prop := b.id ≤ a.id

instance : DecidableRel idGE := fun a b => Nat.decLe b.id a.id

instance : IsTotal Report idGE := ⟨fun a b => Nat.le_total b.id a.id⟩

instance : IsTrans Report idGE := ⟨fun _ _ _ h1 h2 => Nat.le_trans h2 h1⟩

/-- `load_reports` (lines 80-86): `SELECT * FROM reports ORDER BY id DESC`.
Sorting by descending id; since `id` is the unique primary key the result is
independent of the sorting algorithm. -/
def load_reports (db : DB) : List Report :=
  List.insertionSort idGE db.reports

/-- `update_status_bulk` (lines 89-96): for each row of the edited frame run
`UPDATE reports SET status=? WHERE id=?`, then commit once.  An entry whose
id matches no stored row simply updates zero rows; SQLite raises no error,
so the function is total. -/
def update_status_bulk (entries : List (Nat × String)) (db : DB) : DB :=
  entries.foldl
    (fun d e =>
      { d with reports :=
          d.reports.map fun r => if r.id = e.1 then { r with status := e.2 } else r })
    db

/-- The status a report with id `i` and current status `s` holds after the
batch `entries` has run: the second component of the last entry targeting
`i`, or `s` when no entry targets `i`. -/
def finalStatus (entries : List (Nat × String)) (i : Nat) (s : String) : String :=
  entries.foldl (fun acc e => if i = e.1 then e.2 else acc) s

/-! ## Attachment saver (`save_upload`, lines 44-54) -/

/-- A Streamlit `UploadedFile`: its original name and its raw bytes
(`upload.getbuffer()`).  Bytes are `Nat` values below 256. -/
structure Upload where
  name : String
  data : List Nat
deriving Repr, DecidableEq

/-- A clock reading, the fields `datetime.now()` exposes to
`strftime('%Y%m%d-%H%M%S')`. -/
structure Timestamp where
  year : Nat
  month : Nat
  day : Nat
  hour : Nat
  minute : Nat
  second : Nat
deriving Repr, DecidableEq

/-- Zero-pad to two digits, as `strftime` does for `%m %d %H %M %S`. -/
def pad2 (n : Nat) : String :=
  if n < 10 then "0" ++ toString n else toString n

/-- Zero-pad to four digits, as `strftime` does for `%Y`. -/
def pad4 (n : Nat) : String :=
  if n < 10 then "000" ++ toString n
  else if n < 100 then "00" ++ toString n
  else if n < 1000 then "0" ++ toString n
  else toString n

/-- `datetime.now().strftime('%Y%m%d-%H%M%S')`. -/
def fmtTimestamp (t : Timestamp) : String :=
  pad4 t.year ++ pad2 t.month ++ pad2 t.day ++ "-" ++
    pad2 t.hour ++ pad2 t.minute ++ pad2 t.second

/-- `upload.name.replace(' ', '_')`: every space becomes an underscore. -/
def sanitizeName (s : String) : String :=
  ⟨s.data.map fun c => if c = ' ' then '_' else c⟩

/-- `save_upload` (lines 44-54).  `none` in, `none` out and no file touched;
otherwise the file `uploads/<timestamp>_<sanitized name>` is written with
the upload's bytes verbatim and that relative path is returned.  The result
`some (path, bytes)` records both the returned path and the file created
with its content; `none` means no file was created. -/
def save_upload (upload : Option Upload) (now : Timestamp) : Option (String × List Nat) :=
  match upload with
  | none => none
  | some u =>
    let filename := fmtTimestamp now ++ "_" ++ sanitizeName u.name
    some ("uploads" ++ "/" ++ filename, u.data)

/-! ## Submit handler (`menu == "Buat Laporan"`, lines 215-255) -/

/-- The form fields of "Buat Laporan".  Text inputs are plain strings
(Streamlit returns `""` for untouched inputs); the uploader yields
`Option Upload`. -/
structure FormInput where
  pelapor_nama : String
  pelapor_email : String
  judul : String
  kategori : String
  prioritas : String
  deskripsi : String
  lampiran : Option Upload
deriving Repr, DecidableEq

/-- Python `str.strip()`: drop leading and trailing whitespace. -/
def pyStrip (s : String) : String :=
  ⟨((s.data.dropWhile Char.isWhitespace).reverse.dropWhile Char.isWhitespace).reverse⟩

/-- The `dict` literal built in the submit handler (lines 241-252):
stripped optional texts become `None` when empty, `judul` is stripped,
`status` is the literal `"Baru"`, and `lampiran_path` is whatever
`save_upload` returned. -/
def mkRow (form : FormInput) (ts : Timestamp) : Row :=
  { pelapor_nama :=
      if pyStrip form.pelapor_nama = "" then none else some (pyStrip form.pelapor_nama)
    pelapor_email :=
      if pyStrip form.pelapor_email = "" then none else some (pyStrip form.pelapor_email)
    judul := pyStrip form.judul
    kategori := some form.kategori
    prioritas := some form.prioritas
    deskripsi :=
      if pyStrip form.deskripsi = "" then none else some (pyStrip form.deskripsi)
    status := some "Baru"
    lampiran_path := (save_upload form.lampiran ts).map Prod.fst }

/-- The submit handler (lines 236-252): a blank (whitespace-only) title
shows the error `"Judul wajib diisi."` and leaves the database untouched;
otherwise the attachment is saved and `insert_report` runs.  The first
component is the error message shown (`st.error`), if any; the second is
the database after the interaction. -/
def submitReport (form : FormInput) (now : String) (ts : Timestamp) (db : DB) :
    Option String × DB :=
  if pyStrip form.judul = "" then
    (some "Judul wajib diisi.", db)
  else
    (none, (insert_report (mkRow form ts) now db).2)

/-! ## Filter bar (`menu == "Daftar Laporan"`, lines 262-278) -/

/-- Pandas `Series.isin` on a nullable column: a null (`None`) cell is never
`isin` any value list. -/
def isinOpt (vals : List String) (x : Option String) : Bool :=
  match x with
  | some v => vals.contains v
  | none => false

/-- Lines 272-278: `dff = df.copy()` followed by one `isin` filter per
non-empty multiselect (Python list truthiness: a filter applies only when
its multiselect is non-empty).  Rows with a null `kategori`/`prioritas` are
dropped whenever that filter is active. -/
def applyFilters (fk fp fs : List String) (l : List Report) : List Report :=
  let l1 := if fk.isEmpty then l else l.filter fun r => isinOpt fk r.kategori
  let l2 := if fp.isEmpty then l1 else l1.filter fun r => isinOpt fp r.prioritas
  if fs.isEmpty then l2 else l2.filter fun r => fs.contains r.status

/-! ## CSV export (line 308, `dff.to_csv(index=False)`)

Pandas CSV generation and its inverse, modelled at character level.  Each
line is the comma-join of its fields; every line, the header first and the
last row included, ends with a newline.  Fields are lists of characters so
that splitting and joining are plain list operations. -/

/-- Join chunks with a single separator character between consecutive
chunks. -/
def joinSep (c : Char) : List (List Char) → List Char
  | [] => []
  | [x] => x
  | x :: y :: ys => x ++ c :: joinSep c (y :: ys)

/-- Split a character list at every occurrence of `c`; always returns at
least one (possibly empty) chunk. -/
def splitOnChar (c : Char) : List Char → List (List Char)
  | [] => [[]]
  | x :: xs =>
    match splitOnChar c xs with
    | [] => [[]]
    | h :: t => if x = c then [] :: h :: t else (x :: h) :: t

/-- `dff.to_csv(index=False)`: header line then one line per row, fields
comma-separated, a `'\n'` terminator after every line. -/
def to_csv (header : List (List Char)) (rows : List (List (List Char))) : List Char :=
  joinSep '\n' ((header :: rows).map (joinSep ',')) ++ ['\n']

/-- Standard CSV reading for delimiter-free fields: split into lines (the
trailing line terminator produces a final empty chunk, which is dropped),
then split each line on commas. -/
def parse_csv (s : List Char) : List (List (List Char)) :=
  let ls := splitOnChar '\n' s
  let ls2 := if ls.getLast? = some [] then ls.dropLast else ls
  ls2.map (splitOnChar ',')

/-! ## Concrete fixtures used by witnesses and counterexamples -/

/-- A stored report, as produced by a successful submission. -/
def rep1 : Report :=
  { id := 1, created_at := "2024-01-01T09:00:00", pelapor_nama := none,
    pelapor_email := none, judul := "Printer broken", kategori := some "Teknis",
    prioritas := some "Tinggi", deskripsi := none, status := "Baru",
    lampiran_path := none }

/-- A database holding exactly `rep1`. -/
def db1 : DB := { reports := [rep1], seq := 1 }

/-- A fixed clock reading. -/
def ts0 : Timestamp :=
  { year := 2024, month := 1, day := 1, hour := 0, minute := 0, second := 0 }

/-- A form whose title is whitespace only. -/
def form0 : FormInput :=
  { pelapor_nama := "", pelapor_email := "", judul := "   ", kategori := "Umum",
    prioritas := "Sedang", deskripsi := "", lampiran := none }

/-- A valid form submission. -/
def form1 : FormInput :=
  { pelapor_nama := "Andi", pelapor_email := "andi@example.com",
    judul := "Printer broken", kategori := "Teknis", prioritas := "Tinggi",
    deskripsi := "", lampiran := none }

/-- A valid insert row, as the submit handler builds it. -/
def row0 : Row :=
  { pelapor_nama := none, pelapor_email := none, judul := "Printer broken",
    kategori := some "Teknis", prioritas := some "Tinggi", deskripsi := none,
    status := some "Baru", lampiran_path := none }

/-! ## Helper lemmas -/

theorem update_status_bulk_reports (entries : List (Nat × String)) (db : DB) :
    update_status_bulk entries db
      = { db with reports :=
            db.reports.map fun r => { r with status := finalStatus entries r.id r.status } } := by
  induction entries generalizing db with
  | nil =>
    show db = _
    simp only [finalStatus, List.foldl_nil]
    cases db with
    | mk reports seq =>
      simp only [DB.mk.injEq, and_true]
      exact (List.map_id reports).symm
  | cons e es ih =>
    show update_status_bulk es _ = _
    rw [ih]
    simp only [List.map_map, DB.mk.injEq, and_true]
    apply List.map_congr_left
    intro r _
    by_cases h : r.id = e.1
    · simp [Function.comp, h, finalStatus]
    · simp [Function.comp, h, finalStatus]

theorem finalStatus_eq_of_not_targeted :
    ∀ (entries : List (Nat × String)) (i : Nat) (s : String),
      (∀ e ∈ entries, e.1 ≠ i) → finalStatus entries i s = s
  | [], _, _, _ => rfl
  | e :: es, i, s, h => by
    have h1 : ¬ i = e.1 := fun hh => h e (List.mem_cons_self e es) hh.symm
    show finalStatus es i (if i = e.1 then e.2 else s) = s
    rw [if_neg h1]
    exact finalStatus_eq_of_not_targeted es i s fun x hx => h x (List.mem_cons_of_mem e hx)

/-! ## Claims -/

/-- C1, counterexample.  The claim says a batch containing an invalid entry
(here `(2, "Selesai")`: no report with id 2 exists in `db1`) leaves every
stored status unchanged.  The code applies the valid entry anyway: report 1
moves from `"Baru"` to `"Diproses"`. -/
theorem C1_counterexample :
    (update_status_bulk [(1, "Diproses"), (2, "Selesai")] db1).reports.map Report.status
        = ["Diproses"]
      ∧ db1.reports.map Report.status = ["Baru"] :=
  ⟨rfl, rfl⟩

/-- C1 (amended): `update_status_bulk` is not all-or-nothing.  It never
fails; each entry is applied independently, an entry targeting a
nonexistent id silently updates zero rows, and every stored report ends
with the status of the last entry targeting its id (its old status when no
entry does). -/
theorem C1_bulk_update_applies_entries_independently
    (entries : List (Nat × String)) (db : DB) :
    (update_status_bulk entries db).seq = db.seq
      ∧ (update_status_bulk entries db).reports
          = db.reports.map fun r => { r with status := finalStatus entries r.id r.status } := by
  rw [update_status_bulk_reports]
  exact ⟨rfl, rfl⟩

/-- C2, counterexample.  The claim says a status update fails with
`ValidationError` when the new status is outside
`{Baru, Diproses, Selesai}` and succeeds only for enumerated values.  The
code validates nothing: the arbitrary string `"Status Ngawur"` is written
verbatim. -/
theorem C2_counterexample :
    (update_status_bulk [(1, "Status Ngawur")] db1).reports.map Report.status
        = ["Status Ngawur"]
      ∧ "Status Ngawur" ∉ (["Baru", "Diproses", "Selesai"] : List String) :=
  ⟨rfl, by decide⟩

/-- C2 (amended): the store-level status update (a one-entry batch) never
fails.  A matching report gets the given status, whatever string it is; when
no report carries the id the store is returned unchanged (no
`NotFoundError`).  The three-value enumeration is enforced only by the UI
selectbox options, not by the store. -/
theorem C2_update_status_never_fails (i : Nat) (s : String) (db : DB) :
    (update_status_bulk [(i, s)] db).reports
        = db.reports.map (fun r => if r.id = i then { r with status := s } else r)
      ∧ ((∀ r ∈ db.reports, r.id ≠ i) → update_status_bulk [(i, s)] db = db) := by
  obtain ⟨reports, seq⟩ := db
  constructor
  · rfl
  · intro h
    have hmap : reports.map (fun r => if r.id = i then { r with status := s } else r)
        = reports.map id :=
      List.map_congr_left fun r hr => by simp [h r hr]
    show DB.mk (reports.map fun r => if r.id = i then { r with status := s } else r) seq
        = DB.mk reports seq
    rw [hmap, List.map_id]

/-- C2, witness for the amended theorem at a concrete input: id 5 exists
nowhere in `db1`, and the call leaves `db1` unchanged. -/
theorem C2_update_status_never_fails_witness :
    update_status_bulk [(5, "Diproses")] db1 = db1 :=
  (C2_update_status_never_fails 5 "Diproses" db1).2 (by decide)

/-- C3: a submission whose title strips to the empty string is rejected
with the error message `"Judul wajib diisi."` (the code's `ValidationError`
surface) and the database — in particular the set of stored reports — is
exactly what it was before the call. -/
theorem C3_blank_title_rejected (form : FormInput) (now : String) (ts : Timestamp)
    (db : DB) (h : pyStrip form.judul = "") :
    submitReport form now ts db = (some "Judul wajib diisi.", db) := by
  simp [submitReport, h]

/-- C3, witness: submitting `form0` (title `"   "`) against `db1` fails and
returns `db1` itself. -/
theorem C3_blank_title_rejected_witness :
    submitReport form0 "2024-01-01T09:00:00" ts0 db1 = (some "Judul wajib diisi.", db1) :=
  C3_blank_title_rejected form0 "2024-01-01T09:00:00" ts0 db1 (by decide)

/-- C7: a status update touches nothing but the status column.  Every stored
report survives the batch with id, created_at, reporter fields, title,
category, priority, description and attachment path all unchanged, and a
report targeted by no entry of the batch is entirely unchanged. -/
theorem C7_update_changes_only_status (entries : List (Nat × String)) (db : DB)
    (r : Report) (h : r ∈ db.reports) :
    ∃ r' ∈ (update_status_bulk entries db).reports,
      r'.id = r.id ∧ r'.created_at = r.created_at ∧ r'.pelapor_nama = r.pelapor_nama
        ∧ r'.pelapor_email = r.pelapor_email ∧ r'.judul = r.judul
        ∧ r'.kategori = r.kategori ∧ r'.prioritas = r.prioritas
        ∧ r'.deskripsi = r.deskripsi ∧ r'.lampiran_path = r.lampiran_path
        ∧ ((∀ e ∈ entries, e.1 ≠ r.id) → r' = r) := by
  refine ⟨{ r with status := finalStatus entries r.id r.status },
    ?_, rfl, rfl, rfl, rfl, rfl, rfl, rfl, rfl, rfl, ?_⟩
  · rw [update_status_bulk_reports]
    exact List.mem_map_of_mem _ h
  · intro hn
    rw [finalStatus_eq_of_not_targeted entries r.id r.status hn]

/-- C7, witness at the concrete batch `[(1, "Diproses")]` on `db1` and its
stored report `rep1`. -/
theorem C7_update_changes_only_status_witness :
    ∃ r' ∈ (update_status_bulk [(1, "Diproses")] db1).reports,
      r'.id = rep1.id ∧ r'.created_at = rep1.created_at ∧ r'.pelapor_nama = rep1.pelapor_nama
        ∧ r'.pelapor_email = rep1.pelapor_email ∧ r'.judul = rep1.judul
        ∧ r'.kategori = rep1.kategori ∧ r'.prioritas = rep1.prioritas
        ∧ r'.deskripsi = rep1.deskripsi ∧ r'.lampiran_path = rep1.lampiran_path
        ∧ ((∀ e ∈ [((1 : Nat), "Diproses")], e.1 ≠ rep1.id) → r' = rep1) :=
  C7_update_changes_only_status [(1, "Diproses")] db1 rep1 (by decide)

/-- C8, counterexample.  The claim says empty supplied bytes give `None`
and no file.  The code only checks for an absent upload: a present upload
with empty content still produces a path and an (empty) file write. -/
theorem C8_counterexample :
    save_upload (some { name := "a.txt", data := [] }) ts0
        = some ("uploads/20240101-000000_a.txt", [])
      ∧ save_upload (some { name := "a.txt", data := [] }) ts0 ≠ none := by
  exact ⟨rfl, by decide⟩

/-- C8 (amended): `save_upload` returns `none` (and writes nothing) exactly
when no upload object is supplied.  For any present upload — empty bytes
included — it writes the bytes verbatim to
`uploads/<YYYYMMDD-HHMMSS>_<name with spaces replaced by underscores>` and
returns that relative path. -/
theorem C8_save_upload_behavior (u : Upload) (t : Timestamp) :
    save_upload none t = none
      ∧ save_upload (some u) t
          = some ("uploads" ++ "/" ++ (fmtTimestamp t ++ "_" ++ sanitizeName u.name),
              u.data) :=
  ⟨rfl, rfl⟩

/-- C4, counterexample.  The claim says a valid insert returns the newly
assigned id.  On an empty table the new report receives id 1, yet the
Python function has no return statement: the call's value is `None`, not
the id. -/
theorem C4_counterexample :
    (insert_report row0 "2024-01-01T09:00:00" init_db).2.reports.map Report.id = [1]
      ∧ (insert_report row0 "2024-01-01T09:00:00" init_db).1 ≠ some 1 :=
  ⟨rfl, by decide⟩

/-- C4 (amended): a valid submission (title strips to non-empty) raises no
error and appends exactly one report whose id `seq + 1` is strictly greater
than every previously assigned id, whose status is `"Baru"` and whose
`created_at` is the submission instant — but the insert call itself returns
`None`, not the new id. -/
theorem C4_valid_submission_inserts (form : FormInput) (now : String) (ts : Timestamp)
    (db : DB) (hjudul : pyStrip form.judul ≠ "")
    (hseq : ∀ r ∈ db.reports, r.id ≤ db.seq) :
    (submitReport form now ts db).1 = none
      ∧ (insert_report (mkRow form ts) now db).1 = none
      ∧ ∃ nr : Report,
          (submitReport form now ts db).2.reports = db.reports ++ [nr]
            ∧ nr.id = db.seq + 1
            ∧ (∀ r ∈ db.reports, r.id < nr.id)
            ∧ nr.status = "Baru"
            ∧ nr.created_at = now := by
  have h2 : submitReport form now ts db = (none, (insert_report (mkRow form ts) now db).2) := by
    simp [submitReport, hjudul]
  refine ⟨by rw [h2], rfl, ?_⟩
  refine ⟨{ id := db.seq + 1, created_at := now,
            pelapor_nama := (mkRow form ts).pelapor_nama,
            pelapor_email := (mkRow form ts).pelapor_email,
            judul := (mkRow form ts).judul,
            kategori := (mkRow form ts).kategori,
            prioritas := (mkRow form ts).prioritas,
            deskripsi := (mkRow form ts).deskripsi,
            status := "Baru",
            lampiran_path := (mkRow form ts).lampiran_path }, ?_, rfl, ?_, rfl, rfl⟩
  · rw [h2]
    rfl
  · intro r hr
    exact Nat.lt_succ_of_le (hseq r hr)

/-- C4, witness for the amended theorem: submitting `form1` against `db1`
raises no error and appends one report with id 2, status `"Baru"` and the
given creation instant. -/
theorem C4_valid_submission_inserts_witness :
    (submitReport form1 "2024-01-02T10:00:00" ts0 db1).1 = none
      ∧ (insert_report (mkRow form1 ts0) "2024-01-02T10:00:00" db1).1 = none
      ∧ ∃ nr : Report,
          (submitReport form1 "2024-01-02T10:00:00" ts0 db1).2.reports = db1.reports ++ [nr]
            ∧ nr.id = db1.seq + 1
            ∧ (∀ r ∈ db1.reports, r.id < nr.id)
            ∧ nr.status = "Baru"
            ∧ nr.created_at = "2024-01-02T10:00:00" :=
  C4_valid_submission_inserts form1 "2024-01-02T10:00:00" ts0 db1 (by decide) (by decide)

/-- A second stored report, newer than `rep1`. -/
def rep2 : Report :=
  { id := 2, created_at := "2024-01-02T09:00:00", pelapor_nama := some "Budi",
    pelapor_email := none, judul := "Lampu mati", kategori := some "Umum",
    prioritas := some "Rendah", deskripsi := none, status := "Diproses",
    lampiran_path := none }

/-- A database holding `rep1` then `rep2`, in insertion order. -/
def db2 : DB := { reports := [rep1, rep2], seq := 2 }

theorem orderedInsert_append_of_forall (x : Report) :
    ∀ (ys : List Report), (∀ y ∈ ys, ¬ idGE x y) →
      List.orderedInsert idGE x ys = ys ++ [x]
  | [], _ => rfl
  | y :: ys, h => by
    show (if idGE x y then x :: y :: ys else y :: List.orderedInsert idGE x ys)
        = (y :: ys) ++ [x]
    rw [if_neg (h y (List.mem_cons_self y ys))]
    rw [orderedInsert_append_of_forall x ys fun z hz => h z (List.mem_cons_of_mem y hz)]
    exact (List.cons_append y ys [x]).symm

theorem insertionSort_strict_inc_reverse :
    ∀ (l : List Report), l.Pairwise (fun a b => a.id < b.id) →
      List.insertionSort idGE l = l.reverse
  | [], _ => rfl
  | x :: xs, h => by
    have h1 : ∀ y ∈ xs, x.id < y.id := (List.pairwise_cons.mp h).1
    have h2 : xs.Pairwise fun a b => a.id < b.id := (List.pairwise_cons.mp h).2
    show List.orderedInsert idGE x (List.insertionSort idGE xs) = (x :: xs).reverse
    rw [insertionSort_strict_inc_reverse xs h2]
    rw [orderedInsert_append_of_forall x xs.reverse fun y hy =>
      Nat.not_le.mpr (h1 y (List.mem_reverse.mp hy))]
    rw [List.reverse_cons]

/-- C5: on a table whose stored rows carry strictly increasing ids (which
insertion always maintains), `load_reports` returns every report, in exact
reverse insertion order — `ORDER BY id DESC`, no omission, no
pagination. -/
theorem C5_list_all_reverse_insertion_order (db : DB)
    (h : db.reports.Pairwise fun a b => a.id < b.id) :
    load_reports db = db.reports.reverse :=
  insertionSort_strict_inc_reverse db.reports h

/-- C5, witness: listing the two-report database `db2` returns `rep2` first,
then `rep1`. -/
theorem C5_list_all_reverse_insertion_order_witness :
    load_reports db2 = db2.reports.reverse :=
  C5_list_all_reverse_insertion_order db2 (by decide)

theorem contains_iff_mem (vals : List String) (a : String) :
    vals.contains a = true ↔ a ∈ vals :=
  List.elem_iff

theorem isinOpt_iff (vals : List String) (x : Option String) :
    isinOpt vals x = true ↔ ∃ v ∈ vals, x = some v := by
  cases x with
  | none => simp [isinOpt]
  | some k => simp [isinOpt, contains_iff_mem]

/-- C6: a report appears in the filtered listing exactly when it appears in
`load_reports` and, for each dimension with a non-empty selection, its field
equals one of the selected values — conjunctive across the three dimensions,
disjunctive within one dimension, and an empty selection imposes nothing. -/
theorem C6_filters_and_across_or_within (fk fp fs : List String) (db : DB) (r : Report) :
    r ∈ applyFilters fk fp fs (load_reports db)
      ↔ r ∈ load_reports db
          ∧ (fk = [] ∨ ∃ v ∈ fk, r.kategori = some v)
          ∧ (fp = [] ∨ ∃ v ∈ fp, r.prioritas = some v)
          ∧ (fs = [] ∨ r.status ∈ fs) := by
  have hgen : ∀ (l : List Report),
      r ∈ applyFilters fk fp fs l
        ↔ r ∈ l ∧ (fk = [] ∨ ∃ v ∈ fk, r.kategori = some v)
            ∧ (fp = [] ∨ ∃ v ∈ fp, r.prioritas = some v)
            ∧ (fs = [] ∨ r.status ∈ fs) := by
    intro l
    by_cases hk : fk = [] <;> by_cases hp : fp = [] <;> by_cases hs : fs = [] <;>
      simp [applyFilters, hk, hp, hs, List.mem_filter, isinOpt_iff, contains_iff_mem,
        and_assoc] <;>
      tauto
  exact hgen (load_reports db)

theorem cond_filter_sublist (c : Prop) [Decidable c] (p : Report → Bool) (l : List Report) :
    List.Sublist (if c then l else l.filter p) l := by
  split
  · exact List.Sublist.refl l
  · exact List.filter_sublist l

theorem applyFilters_sublist (fk fp fs : List String) (l : List Report) :
    List.Sublist (applyFilters fk fp fs l) l := by
  unfold applyFilters
  exact (cond_filter_sublist _ _ _).trans
    ((cond_filter_sublist _ _ _).trans (cond_filter_sublist _ _ _))

/-- C10: the filtered listing is a subsequence of `load_reports` — filtering
never reorders rows — and is therefore itself ordered by id descending. -/
theorem C10_filtered_preserves_order (fk fp fs : List String) (db : DB) :
    List.Sublist (applyFilters fk fp fs (load_reports db)) (load_reports db)
      ∧ (applyFilters fk fp fs (load_reports db)).Pairwise idGE :=
  have hsub := applyFilters_sublist fk fp fs (load_reports db)
  have hsort : (load_reports db).Pairwise idGE := List.sorted_insertionSort idGE db.reports
  ⟨hsub, hsort.sublist hsub⟩

theorem splitOnChar_ne_nil (c : Char) : ∀ (l : List Char), splitOnChar c l ≠ []
  | [] => by simp [splitOnChar]
  | x :: xs => by
    simp only [splitOnChar]
    cases hs : splitOnChar c xs with
    | nil => simp
    | cons h t => by_cases hx : x = c <;> simp [hx]

theorem splitOnChar_not_mem (c : Char) :
    ∀ (x : List Char), c ∉ x → splitOnChar c x = [x]
  | [], _ => rfl
  | a :: as, h => by
    have ha : ¬ a = c := fun hh => h (hh ▸ List.mem_cons_self a as)
    have ih := splitOnChar_not_mem c as fun hm => h (List.mem_cons_of_mem a hm)
    simp only [splitOnChar]
    rw [ih]
    simp [ha]

theorem splitOnChar_append_sep (c : Char) :
    ∀ (x rest : List Char), c ∉ x →
      splitOnChar c (x ++ c :: rest) = x :: splitOnChar c rest
  | [], rest, _ => by
    simp only [List.nil_append, splitOnChar]
    cases hs : splitOnChar c rest with
    | nil => exact absurd hs (splitOnChar_ne_nil c rest)
    | cons h t => simp
  | a :: as, rest, hmem => by
    have ha : ¬ a = c := fun hh => hmem (hh ▸ List.mem_cons_self a as)
    have ih := splitOnChar_append_sep c as rest fun hm => hmem (List.mem_cons_of_mem a hm)
    simp only [List.cons_append, splitOnChar, List.append_eq]
    rw [ih]
    simp [ha]

theorem splitOnChar_joinSep (c : Char) :
    ∀ (ls : List (List Char)), ls ≠ [] → (∀ l ∈ ls, c ∉ l) →
      splitOnChar c (joinSep c ls) = ls
  | [], h, _ => absurd rfl h
  | [x], _, h => by
    show splitOnChar c x = [x]
    exact splitOnChar_not_mem c x (h x (List.mem_cons_self x []))
  | x :: y :: ys, _, h => by
    show splitOnChar c (x ++ c :: joinSep c (y :: ys)) = x :: y :: ys
    rw [splitOnChar_append_sep c x (joinSep c (y :: ys)) (h x (List.mem_cons_self x (y :: ys)))]
    rw [splitOnChar_joinSep c (y :: ys) (List.cons_ne_nil y ys)
      fun l hl => h l (List.mem_cons_of_mem x hl)]

theorem joinSep_concat_nil (c : Char) :
    ∀ (l : List (List Char)), l ≠ [] → joinSep c (l ++ [[]]) = joinSep c l ++ [c]
  | [], h => absurd rfl h
  | [x], _ => rfl
  | x :: y :: ys, _ => by
    show x ++ c :: joinSep c ((y :: ys) ++ [[]]) = (x ++ c :: joinSep c (y :: ys)) ++ [c]
    rw [joinSep_concat_nil c (y :: ys) (List.cons_ne_nil y ys)]
    simp

theorem not_mem_joinSep (c d : Char) (hne : d ≠ c) :
    ∀ (ls : List (List Char)), (∀ l ∈ ls, d ∉ l) → d ∉ joinSep c ls
  | [], _ => by simp [joinSep]
  | [x], h => h x (List.mem_cons_self x [])
  | x :: y :: ys, h => by
    show d ∉ x ++ c :: joinSep c (y :: ys)
    intro hmem
    rcases List.mem_append.mp hmem with h1 | h2
    · exact h x (List.mem_cons_self x (y :: ys)) h1
    · rcases List.mem_cons.mp h2 with rfl | h3
      · exact hne rfl
      · exact not_mem_joinSep c d hne (y :: ys)
          (fun l hl => h l (List.mem_cons_of_mem x hl)) h3

/-- C9: for rows and header whose fields contain neither the comma nor the
newline delimiter, parsing the produced CSV text yields back exactly the
header and the rows with identical field values. -/
theorem C9_csv_round_trip (header : List (List Char)) (rows : List (List (List Char)))
    (hh : header ≠ [])
    (hhf : ∀ f ∈ header, ',' ∉ f ∧ '\n' ∉ f)
    (hrne : ∀ row ∈ rows, row ≠ [])
    (hrf : ∀ row ∈ rows, ∀ f ∈ row, ',' ∉ f ∧ '\n' ∉ f) :
    parse_csv (to_csv header rows) = header :: rows := by
  have hfields : ∀ row ∈ header :: rows, ∀ f ∈ row, ',' ∉ f ∧ '\n' ∉ f := by
    intro row hrow f hf
    rcases List.mem_cons.mp hrow with rfl | hmem
    · exact hhf f hf
    · exact hrf row hmem f hf
  have hlines : ∀ l ∈ (header :: rows).map (joinSep ','), '\n' ∉ l := by
    intro l hl
    rcases List.mem_map.mp hl with ⟨row, hrow, rfl⟩
    exact not_mem_joinSep ',' '\n' (by decide) row fun f hf => (hfields row hrow f hf).2
  have h0 : to_csv header rows
      = joinSep '\n' (((header :: rows).map (joinSep ',')) ++ [[]]) := by
    rw [joinSep_concat_nil '\n' ((header :: rows).map (joinSep ',')) (by simp)]
    rfl
  have h1 : splitOnChar '\n' (to_csv header rows)
      = ((header :: rows).map (joinSep ',')) ++ [[]] := by
    rw [h0]
    refine splitOnChar_joinSep '\n' _ (by simp) ?_
    intro l hl
    rcases List.mem_append.mp hl with h2 | h2
    · exact hlines l h2
    · rcases List.mem_cons.mp h2 with rfl | h3
      · exact List.not_mem_nil '\n'
      · exact absurd h3 (List.not_mem_nil l)
  show ((if (splitOnChar '\n' (to_csv header rows)).getLast? = some [] then
        (splitOnChar '\n' (to_csv header rows)).dropLast
      else splitOnChar '\n' (to_csv header rows)).map (splitOnChar ',')) = header :: rows
  rw [h1]
  rw [if_pos (List.getLast?_concat _)]
  rw [List.dropLast_concat]
  rw [List.map_map]
  have hback : ∀ row ∈ header :: rows, (splitOnChar ',' ∘ joinSep ',') row = row := by
    intro row hrow
    show splitOnChar ',' (joinSep ',' row) = row
    refine splitOnChar_joinSep ',' row ?_ fun f hf => (hfields row hrow f hf).1
    rcases List.mem_cons.mp hrow with rfl | hmem
    · exact hh
    · exact hrne row hmem
  calc ((header :: rows).map (splitOnChar ',' ∘ joinSep ','))
      = (header :: rows).map id := List.map_congr_left hback
    _ = header :: rows := List.map_id _

/-- A small concrete CSV header. -/
def hdr0 : List (List Char) := [['i', 'd'], ['s', 't']]

/-- Two concrete CSV rows. -/
def rows0 : List (List (List Char)) := [[['1'], ['B']], [['2'], ['S']]]

/-- C9, witness: the concrete two-column, two-row table round-trips. -/
theorem C9_csv_round_trip_witness : parse_csv (to_csv hdr0 rows0) = hdr0 :: rows0 :=
  C9_csv_round_trip hdr0 rows0 (by decide) (by decide) (by decide) (by decide)
